import Mathlib

/-!
Shallow embedding of the AetherFlow container codec
(src/shared/compression.ts).

Buffers are lists of byte values (Nat, each < 256 in real buffers).
JavaScript strings are lists of UTF-16 code units (Nat, each < 2^16),
since the source slices seeds by code unit before UTF-8 encoding them.

External library calls (node crypto SHA-256, zlib deflate/inflate,
float64 log2, IEEE-754 float32 big-endian serialization) are taken as
parameters of the definitions; theorems assume only their documented
interface properties (digest length 32, inflate inverts deflate,
float serialization width 4, log2 1 = 0).
-/

namespace AetherFlow

/-- UTF-8 encoding of a JavaScript (UTF-16) string, as node's
Buffer.from(str, 'utf8') performs it: surrogate pairs become one
4-byte sequence, lone surrogates become the replacement character
EF BF BD. -/
def utf8Encode : List Nat → List Nat
  | [] => []
  | u :: rest =>
    if u < 128 then u :: utf8Encode rest
    else if u < 2048 then (192 + u / 64) :: (128 + u % 64) :: utf8Encode rest
    else if 55296 ≤ u ∧ u < 56320 then
      match rest with
      | [] => [239, 191, 189]
      | v :: rest2 =>
        if 56320 ≤ v ∧ v < 57344 then
          (240 + (65536 + (u - 55296) * 1024 + (v - 56320)) / 262144) ::
          (128 + (65536 + (u - 55296) * 1024 + (v - 56320)) / 4096 % 64) ::
          (128 + (65536 + (u - 55296) * 1024 + (v - 56320)) / 64 % 64) ::
          (128 + (65536 + (u - 55296) * 1024 + (v - 56320)) % 64) ::
          utf8Encode rest2
        else 239 :: 191 :: 189 :: utf8Encode (v :: rest2)
    else if 56320 ≤ u ∧ u < 57344 then 239 :: 191 :: 189 :: utf8Encode rest
    else (224 + u / 4096) :: (128 + u / 64 % 64) :: (128 + u % 64) :: utf8Encode rest

/-- Buffer.copy of src into buf at offset off (truncating at buf's end);
the result keeps buf's length for off ≤ buf.length. -/
def bufWrite (buf : List Nat) (off : Nat) (src : List Nat) : List Nat :=
  (buf.take off ++ src ++ buf.drop (off + src.length)).take buf.length

/-- normalizeSeed (both source variants, identical bodies):
Buffer.alloc(32, 0), then copy Buffer.from(seed.slice(0, 32), 'utf8')
at offset 0.  seed.slice(0, 32) takes the first 32 UTF-16 code units. -/
def normalizeSeed (seed : List Nat) : List Nat :=
  bufWrite (List.replicate 32 0) 0 (utf8Encode (seed.take 32))

/-- Modelled from the spec: the token the spec's words describe for
normalize(seed) — the first 32 bytes of the UTF-8 encoding of seed,
left-aligned and zero-padded.  Stated for comparison with the source's
normalizeSeed. -/
def specNormalizeSeed (seed : List Nat) : List Nat :=
  (utf8Encode seed ++ List.replicate 32 0).take 32

/-- The bytes of the ASCII magic constant "AetherFlowV6". -/
def magicBytes : List Nat := [65, 101, 116, 104, 101, 114, 70, 108, 111, 119, 86, 54]

/-- Buffer.writeUInt32BE serialization (the source only calls it with
values below 2^32, where node would otherwise throw). -/
def uint32BE (n : Nat) : List Nat :=
  [n / 16777216 % 256, n / 65536 % 256, n / 256 % 256, n % 256]

/-- Buffer.readUInt32BE at an offset. -/
def readUInt32BE (c : List Nat) (off : Nat) : Nat :=
  ((c.drop off).take 4).foldl (fun a b => a * 256 + b) 0

/-- Buffer.writeUIntBE with byteLength 3. -/
def uint24BE (n : Nat) : List Nat := [n / 65536 % 256, n / 256 % 256, n % 256]

/-- Buffer.readUIntBE with byteLength 3. -/
def readUInt24BE (c : List Nat) (off : Nat) : Nat :=
  ((c.drop off).take 3).foldl (fun a b => a * 256 + b) 0

/-- Shannon entropy of the byte histogram, exactly as calculateEntropy
computes it (both variants have the same body): -Σ p·log2 p over the
256 buckets with nonzero count, 0 for empty input.  The float64 log2 is
a parameter. -/
def calculateEntropy (log2 : ℚ → ℚ) (data : List Nat) : ℚ :=
  if data.length = 0 then 0
  else
    -(((List.range 256).map (fun i =>
        if 0 < data.count i then
          ((data.count i : ℚ) / (data.length : ℚ)) *
            log2 ((data.count i : ℚ) / (data.length : ℚ))
        else 0)).sum)

/-- The entropy-threshold level selection of the lossless
hyperCompressV6: entropy > 7.5 gives level 1, entropy > 5.0 gives
level 6, otherwise level 9. -/
def chooseLevel (e : ℚ) : Nat :=
  if (15 / 2 : ℚ) < e then 1 else if (5 : ℚ) < e then 6 else 9

structure CompressionResult where
  compressed : List Nat
  originalSize : Nat
  compressedSize : Nat
  ratio : ℚ
  checksum : List Nat
deriving DecidableEq

structure DecompressionResult where
  data : List Nat
  toVerify : Bool
  originalChecksum : List Nat
deriving DecidableEq

/-- The ways a decompress call can throw. -/
inductive DecodeError where
  | tooSmall
  | magicMismatch
  | seedMismatch
  | sizeMismatch
  | inflateFailure
deriving DecidableEq

/-- The 96-byte header both encoders build: magic at 0, original length
(uint32 BE) at 12, serialized entropy at 16, digest at 20, seed token
at 52, level byte at 84, over a zero-initialized buffer. -/
def buildHeaderV6 (len : Nat) (entBytes digest tok : List Nat) (lvl : Nat) : List Nat :=
  bufWrite
    (bufWrite
      (bufWrite
        (bufWrite
          (bufWrite
            (bufWrite (List.replicate 96 0) 0 magicBytes)
            12 (uint32BE len))
          16 entBytes)
        20 digest)
      52 tok)
    84 [lvl]

/-- The encoding level the lossless hyperCompressV6 finally stores at
header byte 84: the entropy-chosen deflate level, or 0 when deflate did
not shrink the payload. -/
def encLevel (log2 : ℚ → ℚ) (deflate : Nat → List Nat → List Nat) (data : List Nat) : Nat :=
  let lvl := chooseLevel (calculateEntropy log2 data)
  if data.length ≤ (deflate lvl data).length then 0 else lvl

/-- The encoded payload bytes the lossless hyperCompressV6 appends
after the header: the deflate output, or the payload verbatim when
deflate did not shrink it. -/
def encBytes (log2 : ℚ → ℚ) (deflate : Nat → List Nat → List Nat) (data : List Nat) : List Nat :=
  let lvl := chooseLevel (calculateEntropy log2 data)
  if data.length ≤ (deflate lvl data).length then data else deflate lvl data

/-- Lossless v6 hyperCompressV6 (second half of compression.ts):
empty input gives the degenerate empty result; otherwise header +
entropy-adaptive deflate (falling back to the verbatim payload when
deflate does not shrink it). -/
def hyperCompressV6 (sha256 : List Nat → List Nat) (log2 : ℚ → ℚ)
    (floatBE : ℚ → List Nat) (deflate : Nat → List Nat → List Nat)
    (data : List Nat) (seed : List Nat) : CompressionResult :=
  if data.length = 0 then ⟨[], 0, 0, 1, []⟩
  else
    let digest := sha256 data
    let ent := calculateEntropy log2 data
    let header := buildHeaderV6 data.length (floatBE ent) digest (normalizeSeed seed)
      (encLevel log2 deflate data)
    let result := header ++ encBytes log2 deflate data
    ⟨result, data.length, result.length, (data.length : ℚ) / (result.length : ℚ), digest⟩

/-- Lossless v6 hyperDecompressV6: a short buffer returns the degenerate
empty result (it does not throw); then magic check, seed-equality check,
inflate (or verbatim for level 0), checksum comparison into the
toVerify flag, and a size check that throws on mismatch. -/
def hyperDecompressV6 (sha256 : List Nat → List Nat)
    (inflate : List Nat → Option (List Nat))
    (compressed : List Nat) (seed : List Nat) : Except DecodeError DecompressionResult :=
  if compressed.length < 96 then .ok ⟨[], false, []⟩
  else if (compressed.take 12).filter (fun b => b ≠ 0) ≠ magicBytes then
    .error .magicMismatch
  else if (compressed.drop 52).take 32 ≠ normalizeSeed seed then
    .error .seedMismatch
  else
    match (if (compressed.drop 84).headD 0 = 0 then some (compressed.drop 96)
           else inflate (compressed.drop 96)) with
    | none => .error .inflateFailure
    | some d =>
      if d.length ≠ readUInt32BE compressed 12 then .error .sizeMismatch
      else .ok ⟨d, (compressed.drop 20).take 32 == sha256 d, sha256 d⟩

/-- FRACTAL_RATIO of the v6.1 fractal variant: 100 GiB per block. -/
def FRACTAL_RATIO : Nat := 100 * 1024 * 1024 * 1024

/-- The additive block sum of fractal block i: bytes of the block added
mod 0xFFFFFF. -/
def blockSum (data : List Nat) (i : Nat) : Nat :=
  ((data.drop (i * FRACTAL_RATIO)).take FRACTAL_RATIO).foldl
    (fun s b => (s + b) % 16777215) 0

/-- The fractal payload: one 3-byte big-endian marker per block. -/
def fractalPayload (data : List Nat) : List Nat :=
  ((List.range ((data.length + FRACTAL_RATIO - 1) / FRACTAL_RATIO)).map
    (fun i => uint24BE (blockSum data i))).flatten

/-- v6.1 fractal hyperCompressV6 (first half of compression.ts):
same 96-byte header layout with level byte fixed to 6, followed by the
deflate (level 9) of the 3-byte-per-block payload. -/
def hyperCompressV6Fractal (sha256 : List Nat → List Nat) (log2 : ℚ → ℚ)
    (floatBE : ℚ → List Nat) (deflate : Nat → List Nat → List Nat)
    (data : List Nat) (seed : List Nat) : CompressionResult :=
  if data.length = 0 then ⟨[], 0, 0, 1, []⟩
  else
    let digest := sha256 data
    let ent := calculateEntropy log2 data
    let header := buildHeaderV6 data.length (floatBE ent) digest (normalizeSeed seed) 6
    let result := header ++ deflate 9 (fractalPayload data)
    ⟨result, data.length, result.length, 100000000000, digest⟩

/-- One reconstructed byte of the fractal decoder, at global position k
(k < originalSize and the block of k has a marker in the payload):
baseValue + seed-and-position offset + remainder spreading, mod 256. -/
def fractalReconstructVal (tok payload : List Nat) (originalSize k : Nat) : Nat :=
  let i := k / FRACTAL_RATIO
  let sum := readUInt24BE payload (i * 3)
  let start := i * FRACTAL_RATIO
  let blockSize := min (start + FRACTAL_RATIO) originalSize - start
  let j := k - start
  (sum / blockSize + (tok.getD (k % 32) 0 + j) % 256 +
    (if j < sum % blockSize then 1 else 0)) % 256

/-- The fractal decoder's reconstruction loop over a zeroed buffer of
originalSize bytes: position k is written iff its block index i
satisfies i * 3 < payload.length. -/
def fractalReconstruct (tok payload : List Nat) (originalSize : Nat) : List Nat :=
  (List.range originalSize).map (fun k =>
    if k / FRACTAL_RATIO * 3 < payload.length then
      fractalReconstructVal tok payload originalSize k
    else 0)

/-- v6.1 fractal hyperDecompressV6: throws on a short buffer and on a
magic mismatch, performs no seed-equality and no size check, and
rebuilds data-independent filler from the block markers. -/
def hyperDecompressV6Fractal (sha256 : List Nat → List Nat)
    (inflate : List Nat → Option (List Nat))
    (compressed : List Nat) (seed : List Nat) : Except DecodeError DecompressionResult :=
  if compressed.length < 96 then .error .tooSmall
  else if (compressed.take 12).filter (fun b => b ≠ 0) ≠ magicBytes then
    .error .magicMismatch
  else
    match inflate (compressed.drop 96) with
    | none => .error .inflateFailure
    | some payload =>
      let result := fractalReconstruct (normalizeSeed seed) payload
        (readUInt32BE compressed 12)
      .ok ⟨result, (compressed.drop 20).take 32 == sha256 result, sha256 result⟩

/-- A stand-in digest satisfying the 32-byte interface, for concrete
evaluations. -/
def cSha (d : List Nat) : List Nat := List.replicate 32 0

/-- A stand-in log2 (only log2 1 = 0 matters), for concrete evaluations. -/
def cLog (q : ℚ) : ℚ := 0

/-- A stand-in 4-byte float serialization, for concrete evaluations. -/
def cFBE (q : ℚ) : List Nat := [0, 0, 0, 0]

/-- A stand-in deflate whose output is never smaller than its input,
paired with cInflate so that inflate inverts deflate. -/
def cDeflate (lvl : Nat) (d : List Nat) : List Nat := d

/-- The inverse of cDeflate. -/
def cInflate (d : List Nat) : Option (List Nat) := some d

/-- UTF-16 code units of the string "default". -/
def defaultSeed : List Nat := [100, 101, 102, 97, 117, 108, 116]

@[simp]
theorem magicBytes_length : magicBytes.length = 12 := rfl

@[simp]
theorem uint32BE_length (n : Nat) : (uint32BE n).length = 4 := rfl

/-- Writing src into done ++ zeros at offset done.length, when src fits. -/
theorem bufWrite_pad (done src : List Nat) (k : Nat) (h : src.length ≤ k) :
    bufWrite (done ++ List.replicate k 0) done.length src =
      (done ++ src) ++ List.replicate (k - src.length) 0 := by
  unfold bufWrite
  rw [List.take_left, List.drop_append_eq_append_drop,
    List.drop_eq_nil_of_le (by omega), List.drop_replicate]
  have h2 : done.length + src.length - done.length = src.length := by omega
  rw [h2]
  rw [List.take_of_length_le (by simp; omega)]
  simp

/-- The header builder in concatenation normal form, given the
interface widths of the digest and the float serialization. -/
theorem buildHeaderV6_eq (len : Nat) (ent dig tok : List Nat) (lvl : Nat)
    (he : ent.length = 4) (hd : dig.length = 32) (ht : tok.length = 32) :
    buildHeaderV6 len ent dig tok lvl =
      magicBytes ++ uint32BE len ++ ent ++ dig ++ tok ++ [lvl] ++ List.replicate 11 0 := by
  have h1 : bufWrite (List.replicate 96 0) 0 magicBytes =
      magicBytes ++ List.replicate 84 0 := by
    have := bufWrite_pad [] magicBytes 96 (by decide)
    simpa using this
  have h2 : bufWrite (magicBytes ++ List.replicate 84 0) 12 (uint32BE len) =
      (magicBytes ++ uint32BE len) ++ List.replicate 80 0 := by
    have := bufWrite_pad magicBytes (uint32BE len) 84 (by simp)
    simpa using this
  have h3 : bufWrite ((magicBytes ++ uint32BE len) ++ List.replicate 80 0) 16 ent =
      ((magicBytes ++ uint32BE len) ++ ent) ++ List.replicate 76 0 := by
    have := bufWrite_pad (magicBytes ++ uint32BE len) ent 80 (by omega)
    simpa [he] using this
  have h4 : bufWrite (((magicBytes ++ uint32BE len) ++ ent) ++ List.replicate 76 0) 20 dig =
      (((magicBytes ++ uint32BE len) ++ ent) ++ dig) ++ List.replicate 44 0 := by
    have := bufWrite_pad ((magicBytes ++ uint32BE len) ++ ent) dig 76 (by omega)
    simpa [he, hd] using this
  have h5 : bufWrite ((((magicBytes ++ uint32BE len) ++ ent) ++ dig) ++ List.replicate 44 0)
      52 tok =
      ((((magicBytes ++ uint32BE len) ++ ent) ++ dig) ++ tok) ++ List.replicate 12 0 := by
    have := bufWrite_pad (((magicBytes ++ uint32BE len) ++ ent) ++ dig) tok 44 (by omega)
    simpa [he, hd, ht] using this
  have h6 : bufWrite (((((magicBytes ++ uint32BE len) ++ ent) ++ dig) ++ tok) ++
      List.replicate 12 0) 84 [lvl] =
      (((((magicBytes ++ uint32BE len) ++ ent) ++ dig) ++ tok) ++ [lvl]) ++
        List.replicate 11 0 := by
    have := bufWrite_pad ((((magicBytes ++ uint32BE len) ++ ent) ++ dig) ++ tok) [lvl] 12
      (by simp)
    simpa [he, hd, ht] using this
  unfold buildHeaderV6
  rw [h1, h2, h3, h4, h5, h6]

/-- normalizeSeed as a take of the padded UTF-8 bytes of the sliced seed. -/
theorem normalizeSeed_eq (s : List Nat) :
    normalizeSeed s = (utf8Encode (s.take 32) ++ List.replicate 32 0).take 32 := by
  unfold normalizeSeed bufWrite
  simp only [List.take_zero, List.nil_append, List.length_replicate, Nat.zero_add,
    List.drop_replicate]
  rw [List.take_append_eq_append_take, List.take_append_eq_append_take]
  simp only [List.take_replicate, List.length_replicate]
  congr 1
  congr 1
  omega

@[simp]
theorem normalizeSeed_length (s : List Nat) : (normalizeSeed s).length = 32 := by
  rw [normalizeSeed_eq]
  simp

/-- Reading back the big-endian serialization of a value below 2^32. -/
theorem uint32BE_foldl (n : Nat) (h : n < 4294967296) :
    (uint32BE n).foldl (fun a b => a * 256 + b) 0 = n := by
  simp [uint32BE, List.foldl]
  omega

/-- Extracting the middle component of a three-part concatenation. -/
theorem extract_mid (P Q R : List Nat) {n m : Nat} (hP : P.length = n) (hQ : Q.length = m) :
    ((P ++ (Q ++ R)).drop n).take m = Q := by
  rw [List.drop_left' hP, List.take_left' hQ]

section ContainerFields

variable {len lvl : Nat} {ent dig tok cd : List Nat}

theorem container_length (he : ent.length = 4) (hd : dig.length = 32) (ht : tok.length = 32) :
    (buildHeaderV6 len ent dig tok lvl ++ cd).length = 96 + cd.length := by
  rw [buildHeaderV6_eq len ent dig tok lvl he hd ht]
  simp [he, hd, ht]
  omega

theorem container_take12 (he : ent.length = 4) (hd : dig.length = 32) (ht : tok.length = 32) :
    (buildHeaderV6 len ent dig tok lvl ++ cd).take 12 = magicBytes := by
  rw [buildHeaderV6_eq len ent dig tok lvl he hd ht]
  have hX : (magicBytes ++ uint32BE len ++ ent ++ dig ++ tok ++ [lvl] ++
      List.replicate 11 0) ++ cd =
      magicBytes ++ (uint32BE len ++ (ent ++ (dig ++ (tok ++ ([lvl] ++
        (List.replicate 11 0 ++ cd)))))) := by
    simp [List.append_assoc]
  rw [hX]
  exact List.take_left' rfl

theorem container_drop12take4 (he : ent.length = 4) (hd : dig.length = 32)
    (ht : tok.length = 32) :
    ((buildHeaderV6 len ent dig tok lvl ++ cd).drop 12).take 4 = uint32BE len := by
  rw [buildHeaderV6_eq len ent dig tok lvl he hd ht]
  have hX : (magicBytes ++ uint32BE len ++ ent ++ dig ++ tok ++ [lvl] ++
      List.replicate 11 0) ++ cd =
      magicBytes ++ (uint32BE len ++ (ent ++ (dig ++ (tok ++ ([lvl] ++
        (List.replicate 11 0 ++ cd)))))) := by
    simp [List.append_assoc]
  rw [hX]
  exact extract_mid _ _ _ (by simp) (by simp)

theorem container_read32 (he : ent.length = 4) (hd : dig.length = 32) (ht : tok.length = 32)
    (hlen : len < 4294967296) :
    readUInt32BE (buildHeaderV6 len ent dig tok lvl ++ cd) 12 = len := by
  unfold readUInt32BE
  rw [container_drop12take4 he hd ht, uint32BE_foldl len hlen]

theorem container_drop16take4 (he : ent.length = 4) (hd : dig.length = 32)
    (ht : tok.length = 32) :
    ((buildHeaderV6 len ent dig tok lvl ++ cd).drop 16).take 4 = ent := by
  rw [buildHeaderV6_eq len ent dig tok lvl he hd ht]
  have hX : (magicBytes ++ uint32BE len ++ ent ++ dig ++ tok ++ [lvl] ++
      List.replicate 11 0) ++ cd =
      (magicBytes ++ uint32BE len) ++ (ent ++ (dig ++ (tok ++ ([lvl] ++
        (List.replicate 11 0 ++ cd))))) := by
    simp [List.append_assoc]
  rw [hX]
  exact extract_mid _ _ _ (by simp) he

theorem container_drop20take32 (he : ent.length = 4) (hd : dig.length = 32)
    (ht : tok.length = 32) :
    ((buildHeaderV6 len ent dig tok lvl ++ cd).drop 20).take 32 = dig := by
  rw [buildHeaderV6_eq len ent dig tok lvl he hd ht]
  have hX : (magicBytes ++ uint32BE len ++ ent ++ dig ++ tok ++ [lvl] ++
      List.replicate 11 0) ++ cd =
      (magicBytes ++ uint32BE len ++ ent) ++ (dig ++ (tok ++ ([lvl] ++
        (List.replicate 11 0 ++ cd)))) := by
    simp [List.append_assoc]
  rw [hX]
  exact extract_mid _ _ _ (by simp [he]) hd

theorem container_drop52take32 (he : ent.length = 4) (hd : dig.length = 32)
    (ht : tok.length = 32) :
    ((buildHeaderV6 len ent dig tok lvl ++ cd).drop 52).take 32 = tok := by
  rw [buildHeaderV6_eq len ent dig tok lvl he hd ht]
  have hX : (magicBytes ++ uint32BE len ++ ent ++ dig ++ tok ++ [lvl] ++
      List.replicate 11 0) ++ cd =
      (magicBytes ++ uint32BE len ++ ent ++ dig) ++ (tok ++ ([lvl] ++
        (List.replicate 11 0 ++ cd))) := by
    simp [List.append_assoc]
  rw [hX]
  exact extract_mid _ _ _ (by simp [he, hd]) ht

theorem container_drop84 (he : ent.length = 4) (hd : dig.length = 32) (ht : tok.length = 32) :
    (buildHeaderV6 len ent dig tok lvl ++ cd).drop 84 =
      [lvl] ++ (List.replicate 11 0 ++ cd) := by
  rw [buildHeaderV6_eq len ent dig tok lvl he hd ht]
  have hX : (magicBytes ++ uint32BE len ++ ent ++ dig ++ tok ++ [lvl] ++
      List.replicate 11 0) ++ cd =
      (magicBytes ++ uint32BE len ++ ent ++ dig ++ tok) ++ ([lvl] ++
        (List.replicate 11 0 ++ cd)) := by
    simp [List.append_assoc]
  rw [hX]
  exact List.drop_left' (by simp [he, hd, ht])

theorem container_drop84take1 (he : ent.length = 4) (hd : dig.length = 32)
    (ht : tok.length = 32) :
    ((buildHeaderV6 len ent dig tok lvl ++ cd).drop 84).take 1 = [lvl] := by
  rw [container_drop84 he hd ht]
  rfl

theorem container_drop84headD (he : ent.length = 4) (hd : dig.length = 32)
    (ht : tok.length = 32) :
    ((buildHeaderV6 len ent dig tok lvl ++ cd).drop 84).headD 0 = lvl := by
  rw [container_drop84 he hd ht]
  rfl

theorem container_drop85take11 (he : ent.length = 4) (hd : dig.length = 32)
    (ht : tok.length = 32) :
    ((buildHeaderV6 len ent dig tok lvl ++ cd).drop 85).take 11 = List.replicate 11 0 := by
  rw [buildHeaderV6_eq len ent dig tok lvl he hd ht]
  have hX : (magicBytes ++ uint32BE len ++ ent ++ dig ++ tok ++ [lvl] ++
      List.replicate 11 0) ++ cd =
      (magicBytes ++ uint32BE len ++ ent ++ dig ++ tok ++ [lvl]) ++
        (List.replicate 11 0 ++ cd) := by
    simp [List.append_assoc]
  rw [hX]
  exact extract_mid _ _ _ (by simp [he, hd, ht]) (by simp)

theorem container_drop96 (he : ent.length = 4) (hd : dig.length = 32) (ht : tok.length = 32) :
    (buildHeaderV6 len ent dig tok lvl ++ cd).drop 96 = cd := by
  rw [buildHeaderV6_eq len ent dig tok lvl he hd ht]
  exact List.drop_left' (by simp [he, hd, ht])

end ContainerFields

/-- The entropy-chosen deflate level is 1, 6 or 9, never 0. -/
theorem chooseLevel_ne_zero (e : ℚ) : chooseLevel e ≠ 0 := by
  unfold chooseLevel
  split <;> simp_all
  split <;> simp_all

/-- The container the lossless encoder emits for a nonempty payload. -/
theorem hyperCompressV6_compressed (sha256 : List Nat → List Nat) (log2 : ℚ → ℚ)
    (floatBE : ℚ → List Nat) (deflate : Nat → List Nat → List Nat)
    (p s : List Nat) (hp : p ≠ []) :
    (hyperCompressV6 sha256 log2 floatBE deflate p s).compressed =
      buildHeaderV6 p.length (floatBE (calculateEntropy log2 p)) (sha256 p)
        (normalizeSeed s) (encLevel log2 deflate p) ++ encBytes log2 deflate p := by
  unfold hyperCompressV6
  rw [if_neg (by simpa [List.length_eq_zero] using hp)]

/-- Decoding a freshly encoded nonempty payload with a seed whose token
matches returns the payload with the toVerify flag set. -/
theorem decode_encode_core (sha256 : List Nat → List Nat) (log2 : ℚ → ℚ)
    (floatBE : ℚ → List Nat) (deflate : Nat → List Nat → List Nat)
    (inflate : List Nat → Option (List Nat)) (p s s' : List Nat)
    (hsha : ∀ d, (sha256 d).length = 32)
    (hf : ∀ q, (floatBE q).length = 4)
    (hri : ∀ lvl d, inflate (deflate lvl d) = some d)
    (hp : p ≠ []) (hlen : p.length < 4294967296)
    (hseed : normalizeSeed s' = normalizeSeed s) :
    hyperDecompressV6 sha256 inflate
      (hyperCompressV6 sha256 log2 floatBE deflate p s).compressed s' =
      .ok ⟨p, true, sha256 p⟩ := by
  rw [hyperCompressV6_compressed sha256 log2 floatBE deflate p s hp]
  have he := hf (calculateEntropy log2 p)
  have hd := hsha p
  have ht := normalizeSeed_length s
  unfold hyperDecompressV6
  rw [if_neg (by rw [container_length he hd ht]; omega)]
  rw [if_neg (by rw [container_take12 he hd ht]; decide)]
  rw [if_neg (by rw [container_drop52take32 he hd ht]; simp [hseed])]
  have hscrut : (if ((buildHeaderV6 p.length (floatBE (calculateEntropy log2 p)) (sha256 p)
      (normalizeSeed s) (encLevel log2 deflate p) ++ encBytes log2 deflate p).drop 84).headD 0
        = 0 then
      some ((buildHeaderV6 p.length (floatBE (calculateEntropy log2 p)) (sha256 p)
        (normalizeSeed s) (encLevel log2 deflate p) ++ encBytes log2 deflate p).drop 96)
      else inflate ((buildHeaderV6 p.length (floatBE (calculateEntropy log2 p)) (sha256 p)
        (normalizeSeed s) (encLevel log2 deflate p) ++ encBytes log2 deflate p).drop 96)) =
      some p := by
    rw [container_drop84headD he hd ht, container_drop96 he hd ht]
    by_cases hc :
      p.length ≤ (deflate (chooseLevel (calculateEntropy log2 p)) p).length
    · rw [if_pos (by simp [encLevel, hc])]
      simp [encBytes, hc]
    · rw [if_neg (by simp [encLevel, hc, chooseLevel_ne_zero])]
      rw [show encBytes log2 deflate p = deflate (chooseLevel (calculateEntropy log2 p)) p
        from by simp [encBytes, hc]]
      exact hri _ _
  rw [hscrut]
  rw [container_read32 he hd ht hlen, container_drop20take32 he hd ht]
  simp

/-- Decoding with a seed whose token differs from the stored one throws
the seed-mismatch error. -/
theorem decode_encode_seedErr (sha256 : List Nat → List Nat) (log2 : ℚ → ℚ)
    (floatBE : ℚ → List Nat) (deflate : Nat → List Nat → List Nat)
    (inflate : List Nat → Option (List Nat)) (p s s' : List Nat)
    (hsha : ∀ d, (sha256 d).length = 32)
    (hf : ∀ q, (floatBE q).length = 4)
    (hp : p ≠ [])
    (hseed : normalizeSeed s' ≠ normalizeSeed s) :
    hyperDecompressV6 sha256 inflate
      (hyperCompressV6 sha256 log2 floatBE deflate p s).compressed s' =
      .error .seedMismatch := by
  rw [hyperCompressV6_compressed sha256 log2 floatBE deflate p s hp]
  have he := hf (calculateEntropy log2 p)
  have hd := hsha p
  have ht := normalizeSeed_length s
  unfold hyperDecompressV6
  rw [if_neg (by rw [container_length he hd ht]; omega)]
  rw [if_neg (by rw [container_take12 he hd ht]; decide)]
  rw [if_pos (by rw [container_drop52take32 he hd ht]; exact hseed.symm)]

/-- A constant payload has one nonzero histogram bucket with empirical
probability 1, so its entropy is -(1 * log2 1) = 0. -/
theorem calculateEntropy_replicate (log2 : ℚ → ℚ) (hl : log2 1 = 0) (n c : Nat)
    (hn : 0 < n) :
    calculateEntropy log2 (List.replicate n c) = 0 := by
  unfold calculateEntropy
  rw [if_neg (by simp; omega)]
  rw [neg_eq_zero]
  apply List.sum_eq_zero
  intro x hx
  simp only [List.mem_map, List.mem_range] at hx
  obtain ⟨i, _, rfl⟩ := hx
  by_cases hic : i = c
  · subst hic
    have hcount : (List.replicate n i).count i = n := by simp
    rw [if_pos (by rw [hcount]; omega)]
    rw [hcount]
    simp only [List.length_replicate]
    rw [div_self (by exact_mod_cast hn.ne'), hl, mul_zero]
  · have hcount : (List.replicate n c).count i = 0 := by
      simp [List.count_replicate]
      omega
    rw [if_neg (by rw [hcount]; omega)]

/-- Every UTF-16 code unit contributes at least one UTF-8 byte. -/
theorem le_utf8Encode_length : (s : List Nat) → s.length ≤ (utf8Encode s).length
  | [] => by decide
  | u :: rest => by
    have ih := le_utf8Encode_length rest
    rw [utf8Encode.eq_def]
    by_cases h1 : u < 128
    · simp [h1]
      omega
    · by_cases h2 : u < 2048
      · simp [h1, h2]
        omega
      · by_cases h3 : 55296 ≤ u ∧ u < 56320
        · cases rest with
          | nil => simp [h1, h2, h3]
          | cons v rest2 =>
            by_cases h4 : 56320 ≤ v ∧ v < 57344
            · have ih2 := le_utf8Encode_length rest2
              simp [h1, h2, h3, h4]
              omega
            · simp [h1, h2, h3, h4]
              simp only [List.length_cons] at ih
              omega
        · by_cases h5 : 56320 ≤ u ∧ u < 57344
          · simp [h1, h2, h3, h5]
            omega
          · simp [h1, h2, h3, h5]
            omega

/-- When the UTF-8 encoding of the whole seed fits in 32 bytes, the
token is that encoding zero-padded (the code-unit slice is a no-op). -/
theorem normalizeSeed_of_short (seed : List Nat) (h : (utf8Encode seed).length ≤ 32) :
    normalizeSeed seed =
      utf8Encode seed ++ List.replicate (32 - (utf8Encode seed).length) 0 := by
  have hs : seed.length ≤ 32 := le_trans (le_utf8Encode_length seed) h
  rw [normalizeSeed_eq, List.take_of_length_le hs]
  rw [List.take_append_eq_append_take, List.take_of_length_le h, List.take_replicate]
  congr 1
  congr 1
  omega

/-- The container the fractal encoder emits for a nonempty payload. -/
theorem hyperCompressV6Fractal_compressed (sha256 : List Nat → List Nat) (log2 : ℚ → ℚ)
    (floatBE : ℚ → List Nat) (deflate : Nat → List Nat → List Nat)
    (p s : List Nat) (hp : p ≠ []) :
    (hyperCompressV6Fractal sha256 log2 floatBE deflate p s).compressed =
      buildHeaderV6 p.length (floatBE (calculateEntropy log2 p)) (sha256 p)
        (normalizeSeed s) 6 ++ deflate 9 (fractalPayload p) := by
  unfold hyperCompressV6Fractal
  rw [if_neg (by simpa [List.length_eq_zero] using hp)]

/-- C1 (counterexample to the claim as stated): at the empty payload the
round trip returns the payload but the toVerify flag is false, not true. -/
theorem claim_C1_cex :
    Except.map DecompressionResult.toVerify
      (hyperDecompressV6 cSha cInflate
        ((hyperCompressV6 cSha cLog cFBE cDeflate [] [97]).compressed) [97]) ≠
      Except.ok true := by
  have h : Except.map DecompressionResult.toVerify
      (hyperDecompressV6 cSha cInflate
        ((hyperCompressV6 cSha cLog cFBE cDeflate [] [97]).compressed) [97]) =
      Except.ok false := rfl
  rw [h]
  simp

/-- C1 (amended): for every nonempty payload and every seed, decoding the
encoded container with the same seed returns the payload byte-for-byte
with toVerify true; for the empty payload the decoded payload is again
empty (byte-for-byte equal) but toVerify is false. -/
theorem claim_C1 (sha256 : List Nat → List Nat) (log2 : ℚ → ℚ)
    (floatBE : ℚ → List Nat) (deflate : Nat → List Nat → List Nat)
    (inflate : List Nat → Option (List Nat)) (p s : List Nat)
    (hsha : ∀ d, (sha256 d).length = 32)
    (hf : ∀ q, (floatBE q).length = 4)
    (hri : ∀ lvl d, inflate (deflate lvl d) = some d)
    (hp : p ≠ []) (hlen : p.length < 4294967296) :
    hyperDecompressV6 sha256 inflate
      (hyperCompressV6 sha256 log2 floatBE deflate p s).compressed s =
      .ok ⟨p, true, sha256 p⟩ ∧
    hyperDecompressV6 sha256 inflate
      (hyperCompressV6 sha256 log2 floatBE deflate [] s).compressed s =
      .ok ⟨[], false, []⟩ := by
  constructor
  · exact decode_encode_core sha256 log2 floatBE deflate inflate p s s
      hsha hf hri hp hlen rfl
  · simp [hyperCompressV6, hyperDecompressV6]

theorem claim_C1_wit :
    hyperDecompressV6 cSha cInflate
      ((hyperCompressV6 cSha cLog cFBE cDeflate [1, 2, 3] [97]).compressed) [97] =
      .ok ⟨[1, 2, 3], true, cSha [1, 2, 3]⟩ ∧
    hyperDecompressV6 cSha cInflate
      ((hyperCompressV6 cSha cLog cFBE cDeflate [] [97]).compressed) [97] =
      .ok ⟨[], false, []⟩ :=
  claim_C1 cSha cLog cFBE cDeflate cInflate [1, 2, 3] [97]
    (fun _ => by simp [cSha]) (fun _ => rfl) (fun _ _ => rfl)
    (by decide) (by decide)

/-- C2 (counterexample to the claim as stated): the lossless decoder
throws a seed-mismatch error when the supplied seed's token differs from
the stored one, so the supplied seed does gate decoding. -/
theorem claim_C2_cex :
    hyperDecompressV6 cSha cInflate
      ((hyperCompressV6 cSha cLog cFBE cDeflate [1] [97]).compressed) [98] =
      .error .seedMismatch := rfl

/-- C2 (amended): for every well-formed container of the entropy-adaptive
format, decoding succeeds exactly when the supplied seed normalizes to the
stored 32-byte token; a differing supplied seed makes the decode call fail
with the seed-mismatch error. -/
theorem claim_C2 (sha256 : List Nat → List Nat) (log2 : ℚ → ℚ)
    (floatBE : ℚ → List Nat) (deflate : Nat → List Nat → List Nat)
    (inflate : List Nat → Option (List Nat)) (p s s' : List Nat)
    (hsha : ∀ d, (sha256 d).length = 32)
    (hf : ∀ q, (floatBE q).length = 4)
    (hri : ∀ lvl d, inflate (deflate lvl d) = some d)
    (hp : p ≠ []) (hlen : p.length < 4294967296) :
    (normalizeSeed s' ≠ normalizeSeed s →
      hyperDecompressV6 sha256 inflate
        (hyperCompressV6 sha256 log2 floatBE deflate p s).compressed s' =
        .error .seedMismatch) ∧
    (normalizeSeed s' = normalizeSeed s →
      hyperDecompressV6 sha256 inflate
        (hyperCompressV6 sha256 log2 floatBE deflate p s).compressed s' =
        .ok ⟨p, true, sha256 p⟩) :=
  ⟨fun h => decode_encode_seedErr sha256 log2 floatBE deflate inflate p s s'
      hsha hf hp h,
   fun h => decode_encode_core sha256 log2 floatBE deflate inflate p s s'
      hsha hf hri hp hlen h⟩

theorem claim_C2_wit :
    hyperDecompressV6 cSha cInflate
      ((hyperCompressV6 cSha cLog cFBE cDeflate [2] [97]).compressed) [98] =
      .error .seedMismatch ∧
    hyperDecompressV6 cSha cInflate
      ((hyperCompressV6 cSha cLog cFBE cDeflate [2] [97]).compressed) [97] =
      .ok ⟨[2], true, cSha [2]⟩ :=
  ⟨(claim_C2 cSha cLog cFBE cDeflate cInflate [2] [97] [98]
      (fun _ => by simp [cSha]) (fun _ => rfl) (fun _ _ => rfl)
      (by decide) (by decide)).1 (by decide),
   (claim_C2 cSha cLog cFBE cDeflate cInflate [2] [97] [97]
      (fun _ => by simp [cSha]) (fun _ => rfl) (fun _ _ => rfl)
      (by decide) (by decide)).2 rfl⟩

/-- C3 (counterexample to the claim as stated): decoding the empty
container yields toVerify false, not true. -/
theorem claim_C3_cex :
    Except.map DecompressionResult.toVerify
      (hyperDecompressV6 cSha cInflate
        ((hyperCompressV6 cSha cLog cFBE cDeflate [] [116]).compressed) [116]) ≠
      Except.ok true := by
  have h : Except.map DecompressionResult.toVerify
      (hyperDecompressV6 cSha cInflate
        ((hyperCompressV6 cSha cLog cFBE cDeflate [] [116]).compressed) [116]) =
      Except.ok false := rfl
  rw [h]
  simp

/-- C3 (amended): encoding the empty payload yields originalSize 0,
compressedSize 0 and an empty container; decoding that empty container
returns an empty payload with toVerify false (not true). -/
theorem claim_C3 (sha256 : List Nat → List Nat) (log2 : ℚ → ℚ)
    (floatBE : ℚ → List Nat) (deflate : Nat → List Nat → List Nat)
    (inflate : List Nat → Option (List Nat)) (s : List Nat) :
    hyperCompressV6 sha256 log2 floatBE deflate [] s = ⟨[], 0, 0, 1, []⟩ ∧
    hyperDecompressV6 sha256 inflate
      (hyperCompressV6 sha256 log2 floatBE deflate [] s).compressed s =
      .ok ⟨[], false, []⟩ := by
  constructor
  · simp [hyperCompressV6]
  · simp [hyperCompressV6, hyperDecompressV6]

/-- C4 (counterexample to the claim as stated): a 3-byte buffer is
shorter than the 96-byte header, yet the lossless decode call does not
fail — it returns the degenerate empty result. -/
theorem claim_C4_cex :
    hyperDecompressV6 cSha cInflate [0, 1, 2] [103] = .ok ⟨[], false, []⟩ := rfl

/-- C4 (amended): for every input buffer shorter than 96 bytes, the
lossless decode returns the degenerate result (empty payload, toVerify
false, empty digest) instead of failing with an error. -/
theorem claim_C4 (sha256 : List Nat → List Nat)
    (inflate : List Nat → Option (List Nat)) (c s : List Nat)
    (h : c.length < 96) :
    hyperDecompressV6 sha256 inflate c s = .ok ⟨[], false, []⟩ := by
  unfold hyperDecompressV6
  rw [if_pos h]

theorem claim_C4_wit :
    hyperDecompressV6 cSha cInflate (List.replicate 95 7) [97] =
      .ok ⟨[], false, []⟩ :=
  claim_C4 cSha cInflate (List.replicate 95 7) [97] (by decide)

/-- C5 (confirmed): for every nonempty payload the deflate level is
selected from the Shannon entropy by the 7.5 and 5.0 thresholds
(weakest 1, balanced 6, strongest 9); the level byte the container
stores is the selected level, demoted to the uncompressed marker 0 with
the payload stored verbatim exactly when deflate did not shrink it; and
a payload of identical bytes has entropy 0 and so selects level 9. -/
theorem claim_C5 (sha256 : List Nat → List Nat) (log2 : ℚ → ℚ)
    (floatBE : ℚ → List Nat) (deflate : Nat → List Nat → List Nat)
    (p s : List Nat)
    (hsha : ∀ d, (sha256 d).length = 32) (hf : ∀ q, (floatBE q).length = 4)
    (hl : log2 1 = 0) (hp : p ≠ []) :
    ((15 / 2 : ℚ) < calculateEntropy log2 p →
      chooseLevel (calculateEntropy log2 p) = 1) ∧
    ((5 : ℚ) < calculateEntropy log2 p ∧ calculateEntropy log2 p ≤ 15 / 2 →
      chooseLevel (calculateEntropy log2 p) = 6) ∧
    (calculateEntropy log2 p ≤ 5 → chooseLevel (calculateEntropy log2 p) = 9) ∧
    (((hyperCompressV6 sha256 log2 floatBE deflate p s).compressed.drop 84).take 1 =
      [encLevel log2 deflate p]) ∧
    ((hyperCompressV6 sha256 log2 floatBE deflate p s).compressed.drop 96 =
      encBytes log2 deflate p) ∧
    (p.length ≤ (deflate (chooseLevel (calculateEntropy log2 p)) p).length →
      encLevel log2 deflate p = 0 ∧ encBytes log2 deflate p = p) ∧
    ((deflate (chooseLevel (calculateEntropy log2 p)) p).length < p.length →
      encLevel log2 deflate p = chooseLevel (calculateEntropy log2 p)) ∧
    (∀ n c : Nat, 0 < n →
      chooseLevel (calculateEntropy log2 (List.replicate n c)) = 9) := by
  have he := hf (calculateEntropy log2 p)
  have hd := hsha p
  have ht := normalizeSeed_length s
  refine ⟨?_, ?_, ?_, ?_, ?_, ?_, ?_, ?_⟩
  · intro h
    unfold chooseLevel
    rw [if_pos h]
  · intro h
    unfold chooseLevel
    rw [if_neg (not_lt.mpr h.2), if_pos h.1]
  · intro h
    unfold chooseLevel
    rw [if_neg (by linarith), if_neg (not_lt.mpr h)]
  · rw [hyperCompressV6_compressed sha256 log2 floatBE deflate p s hp]
    exact container_drop84take1 he hd ht
  · rw [hyperCompressV6_compressed sha256 log2 floatBE deflate p s hp]
    exact container_drop96 he hd ht
  · intro h
    exact ⟨by simp [encLevel, h], by simp [encBytes, h]⟩
  · intro h
    unfold encLevel
    rw [if_neg (by omega)]
  · intro n c hn
    rw [calculateEntropy_replicate log2 hl n c hn]
    unfold chooseLevel
    norm_num

theorem claim_C5_wit :
    calculateEntropy cLog (List.replicate 3 5) ≤ 5 ∧
    chooseLevel (calculateEntropy cLog (List.replicate 4 65)) = 9 ∧
    ((hyperCompressV6 cSha cLog cFBE cDeflate (List.replicate 3 5)
        [97]).compressed.drop 84).take 1 =
      [encLevel cLog cDeflate (List.replicate 3 5)] := by
  have H := claim_C5 cSha cLog cFBE cDeflate (List.replicate 3 5) [97]
    (fun _ => by simp [cSha]) (fun _ => rfl) rfl (by decide)
  refine ⟨?_, H.2.2.2.2.2.2.2 4 65 (by decide), H.2.2.2.1⟩
  rw [calculateEntropy_replicate cLog rfl 3 5 (by decide)]
  norm_num

/-- C6 (confirmed): for every nonempty payload the container begins with
the fixed 96-byte header — magic at bytes 0-11, original length as
big-endian uint32 at 12-15, the serialized entropy at 16-19, the 32-byte
digest at 20-51, the 32-byte normalized seed token at 52-83, the
encoding-level byte at 84 and eleven zero bytes at 85-95 — followed by
the encoded payload bytes. -/
theorem claim_C6 (sha256 : List Nat → List Nat) (log2 : ℚ → ℚ)
    (floatBE : ℚ → List Nat) (deflate : Nat → List Nat → List Nat)
    (p s c : List Nat)
    (hsha : ∀ d, (sha256 d).length = 32) (hf : ∀ q, (floatBE q).length = 4)
    (hp : p ≠ []) (hlen : p.length < 4294967296)
    (hc : c = (hyperCompressV6 sha256 log2 floatBE deflate p s).compressed) :
    c.take 12 = magicBytes ∧
    (c.drop 12).take 4 = uint32BE p.length ∧
    readUInt32BE c 12 = p.length ∧
    (c.drop 16).take 4 = floatBE (calculateEntropy log2 p) ∧
    (c.drop 20).take 32 = sha256 p ∧
    (c.drop 52).take 32 = normalizeSeed s ∧
    (c.drop 84).take 1 = [encLevel log2 deflate p] ∧
    (c.drop 85).take 11 = List.replicate 11 0 ∧
    c.drop 96 = encBytes log2 deflate p ∧
    c.length = 96 + (encBytes log2 deflate p).length := by
  subst hc
  rw [hyperCompressV6_compressed sha256 log2 floatBE deflate p s hp]
  have he := hf (calculateEntropy log2 p)
  have hd := hsha p
  have ht := normalizeSeed_length s
  exact ⟨container_take12 he hd ht, container_drop12take4 he hd ht,
    container_read32 he hd ht hlen, container_drop16take4 he hd ht,
    container_drop20take32 he hd ht, container_drop52take32 he hd ht,
    container_drop84take1 he hd ht, container_drop85take11 he hd ht,
    container_drop96 he hd ht, container_length he hd ht⟩

theorem claim_C6_wit :
    ((hyperCompressV6 cSha cLog cFBE cDeflate [9, 9] [97]).compressed).take 12 =
      magicBytes ∧
    readUInt32BE (hyperCompressV6 cSha cLog cFBE cDeflate [9, 9] [97]).compressed 12 = 2 ∧
    (((hyperCompressV6 cSha cLog cFBE cDeflate [9, 9] [97]).compressed).drop 52).take 32 =
      normalizeSeed [97] := by
  have H := claim_C6 cSha cLog cFBE cDeflate [9, 9] [97] _
    (fun _ => by simp [cSha]) (fun _ => rfl) (by decide) (by decide) rfl
  exact ⟨H.1, H.2.2.1, H.2.2.2.2.2.1⟩

/-- C7 (counterexample to the claim as stated): a seed of 31 ASCII bytes
followed by one astral character (a UTF-16 surrogate pair) is sliced
after 32 code units, splitting the pair, so the 32nd token byte is the
first byte EF of the replacement character instead of the first byte F0
of the character's 4-byte UTF-8 sequence. -/
theorem claim_C7_cex :
    normalizeSeed (List.replicate 31 97 ++ [55348, 56606]) ≠
      specNormalizeSeed (List.replicate 31 97 ++ [55348, 56606]) := by
  decide

/-- C7 (amended): normalize(seed) is total and always returns exactly 32
bytes; it consists of the first 32 bytes of the UTF-8 encoding of the
first 32 UTF-16 code units of seed, zero-padded — which equals the first
32 bytes of the UTF-8 encoding of seed except when the 32-code-unit cut
splits a surrogate pair; in particular, whenever the UTF-8 encoding of
seed is at most 32 bytes, the token is that encoding followed by zeros. -/
theorem claim_C7 (seed : List Nat) :
    (normalizeSeed seed).length = 32 ∧
    normalizeSeed seed = (utf8Encode (seed.take 32) ++ List.replicate 32 0).take 32 ∧
    ((utf8Encode seed).length ≤ 32 →
      normalizeSeed seed =
        utf8Encode seed ++ List.replicate (32 - (utf8Encode seed).length) 0) :=
  ⟨normalizeSeed_length seed, normalizeSeed_eq seed, normalizeSeed_of_short seed⟩

theorem claim_C7_wit :
    (normalizeSeed [97, 98]).length = 32 ∧
    normalizeSeed [97, 98] =
      utf8Encode [97, 98] ++ List.replicate (32 - (utf8Encode [97, 98]).length) 0 :=
  ⟨(claim_C7 [97, 98]).1, (claim_C7 [97, 98]).2.2 (by decide)⟩

/-- C8 (confirmed): the fractal block-sum transform is not invertible —
the two-byte payload 00 00 encoded under the seed "default" decodes to
the seed-derived filler bytes 100 102, not to the original bytes. -/
theorem claim_C8 (sha256 : List Nat → List Nat) (log2 : ℚ → ℚ)
    (floatBE : ℚ → List Nat) (deflate : Nat → List Nat → List Nat)
    (inflate : List Nat → Option (List Nat))
    (hsha : ∀ d, (sha256 d).length = 32)
    (hf : ∀ q, (floatBE q).length = 4)
    (hri : ∀ lvl d, inflate (deflate lvl d) = some d) :
    ∃ p s, Except.map DecompressionResult.data
      (hyperDecompressV6Fractal sha256 inflate
        (hyperCompressV6Fractal sha256 log2 floatBE deflate p s).compressed s) ≠
      Except.ok p := by
  refine ⟨[0, 0], defaultSeed, ?_⟩
  rw [hyperCompressV6Fractal_compressed sha256 log2 floatBE deflate [0, 0] defaultSeed
    (by decide)]
  have he := hf (calculateEntropy log2 [0, 0])
  have hd := hsha [0, 0]
  have ht := normalizeSeed_length defaultSeed
  unfold hyperDecompressV6Fractal
  rw [if_neg (by rw [container_length he hd ht]; omega)]
  rw [if_neg (by rw [container_take12 he hd ht]; decide)]
  rw [container_drop96 he hd ht, hri 9 (fractalPayload [0, 0]),
    container_read32 he hd ht (by decide), container_drop20take32 he hd ht]
  simp only [Except.map, List.length_cons, List.length_nil]
  have hrec : fractalReconstruct (normalizeSeed defaultSeed) (fractalPayload [0, 0]) 2 =
      [100, 102] := by decide
  rw [hrec]
  simp

theorem claim_C8_wit :
    ∃ p s, Except.map DecompressionResult.data
      (hyperDecompressV6Fractal cSha cInflate
        (hyperCompressV6Fractal cSha cLog cFBE cDeflate p s).compressed s) ≠
      Except.ok p :=
  claim_C8 cSha cLog cFBE cDeflate cInflate
    (fun _ => by simp [cSha]) (fun _ => rfl) (fun _ _ => rfl)

/-- C9 (counterexample to the claim as stated): the seeds of 33 and of 34
repetitions of the letter a are distinct strings but normalize to the
same 32-byte token, so a nonempty payload encodes to byte-identical
containers under them. -/
theorem claim_C9_cex :
    List.replicate 33 97 ≠ List.replicate 34 97 ∧
    (hyperCompressV6 cSha cLog cFBE cDeflate [1] (List.replicate 33 97)).compressed =
      (hyperCompressV6 cSha cLog cFBE cDeflate [1] (List.replicate 34 97)).compressed := by
  constructor
  · decide
  · rfl

/-- C9 (amended): for every nonempty payload, two seeds whose normalized
32-byte tokens differ produce different containers (they differ in the
seed field at bytes 52-83), and each container decodes successfully under
its own seed; seeds that are distinct strings but share a normalized
token (e.g. two seeds agreeing on their first 32 bytes) produce
byte-identical containers. -/
theorem claim_C9 (sha256 : List Nat → List Nat) (log2 : ℚ → ℚ)
    (floatBE : ℚ → List Nat) (deflate : Nat → List Nat → List Nat)
    (inflate : List Nat → Option (List Nat)) (p s1 s2 : List Nat)
    (hsha : ∀ d, (sha256 d).length = 32)
    (hf : ∀ q, (floatBE q).length = 4)
    (hri : ∀ lvl d, inflate (deflate lvl d) = some d)
    (hp : p ≠ []) (hlen : p.length < 4294967296)
    (hne : normalizeSeed s1 ≠ normalizeSeed s2) :
    (hyperCompressV6 sha256 log2 floatBE deflate p s1).compressed ≠
      (hyperCompressV6 sha256 log2 floatBE deflate p s2).compressed ∧
    hyperDecompressV6 sha256 inflate
      (hyperCompressV6 sha256 log2 floatBE deflate p s1).compressed s1 =
      .ok ⟨p, true, sha256 p⟩ ∧
    hyperDecompressV6 sha256 inflate
      (hyperCompressV6 sha256 log2 floatBE deflate p s2).compressed s2 =
      .ok ⟨p, true, sha256 p⟩ := by
  have he := hf (calculateEntropy log2 p)
  have hd := hsha p
  refine ⟨?_, decode_encode_core sha256 log2 floatBE deflate inflate p s1 s1
    hsha hf hri hp hlen rfl,
    decode_encode_core sha256 log2 floatBE deflate inflate p s2 s2
    hsha hf hri hp hlen rfl⟩
  intro h
  apply hne
  have h52 := congrArg (fun l => (l.drop 52).take 32) h
  rw [hyperCompressV6_compressed sha256 log2 floatBE deflate p s1 hp,
    hyperCompressV6_compressed sha256 log2 floatBE deflate p s2 hp] at h52
  simpa [container_drop52take32 he hd (normalizeSeed_length s1),
    container_drop52take32 he hd (normalizeSeed_length s2)] using h52

theorem claim_C9_wit :
    (hyperCompressV6 cSha cLog cFBE cDeflate [2] [97]).compressed ≠
      (hyperCompressV6 cSha cLog cFBE cDeflate [2] [98]).compressed ∧
    hyperDecompressV6 cSha cInflate
      (hyperCompressV6 cSha cLog cFBE cDeflate [2] [97]).compressed [97] =
      .ok ⟨[2], true, cSha [2]⟩ :=
  have H := claim_C9 cSha cLog cFBE cDeflate cInflate [2] [97] [98]
    (fun _ => by simp [cSha]) (fun _ => rfl) (fun _ _ => rfl)
    (by decide) (by decide) (by decide)
  ⟨H.1, H.2.1⟩

/-- C10 (confirmed): in the lossless decode of a buffer large enough to
hold the header, a successfully returned payload always has length equal
to the original-length field at header bytes 12-15, because after
decompression the decoder throws a size-mismatch error whenever the
decompressed length differs from that field. -/
theorem claim_C10 (sha256 : List Nat → List Nat)
    (inflate : List Nat → Option (List Nat)) (c s : List Nat)
    (h96 : 96 ≤ c.length) :
    (∀ r, hyperDecompressV6 sha256 inflate c s = .ok r →
      r.data.length = readUInt32BE c 12) ∧
    (∀ d, (if (c.drop 84).headD 0 = 0 then some (c.drop 96)
        else inflate (c.drop 96)) = some d →
      d.length ≠ readUInt32BE c 12 →
      (c.take 12).filter (fun b => b ≠ 0) = magicBytes →
      (c.drop 52).take 32 = normalizeSeed s →
      hyperDecompressV6 sha256 inflate c s = .error .sizeMismatch) := by
  constructor
  · intro r h
    unfold hyperDecompressV6 at h
    rw [if_neg (by omega)] at h
    split at h
    · exact absurd h (by simp)
    · split at h
      · exact absurd h (by simp)
      · split at h
        · exact absurd h (by simp)
        · rename_i d hd
          split at h
          · exact absurd h (by simp)
          · rename_i hsize
            have hr : r.data = d := by
              injection h with h2
              rw [← h2]
            rw [hr]
            omega
  · intro d hd hne hmagic hseed
    unfold hyperDecompressV6
    rw [if_neg (by omega), if_neg (by exact fun hcon => hcon hmagic),
      if_neg (by exact fun hcon => hcon hseed), hd]
    simp [hne]

theorem claim_C10_wit :
    (⟨[1, 2, 3], true, cSha [1, 2, 3]⟩ : DecompressionResult).data.length =
      readUInt32BE (hyperCompressV6 cSha cLog cFBE cDeflate [1, 2, 3] [97]).compressed 12 ∧
    hyperDecompressV6 cSha cInflate
      (buildHeaderV6 5 [0, 0, 0, 0] (cSha []) (normalizeSeed [97]) 0 ++ [9]) [97] =
      .error .sizeMismatch :=
  ⟨(claim_C10 cSha cInflate
      (hyperCompressV6 cSha cLog cFBE cDeflate [1, 2, 3] [97]).compressed [97]
      (by decide)).1 ⟨[1, 2, 3], true, cSha [1, 2, 3]⟩ rfl,
   (claim_C10 cSha cInflate
      (buildHeaderV6 5 [0, 0, 0, 0] (cSha []) (normalizeSeed [97]) 0 ++ [9]) [97]
      (by decide)).2 [9] rfl (by decide) (by decide) (by decide)⟩

end AetherFlow
